import Mathlib

/-!
Verification development for the completions SDK (src/index.ts): a shallow
embedding of the MCP server registry, the HTTP protocol client, the tool
catalog cache, the streaming tool-call reconstruction buffer, and the
one-round tool-execution orchestration, together with theorems settling the
frozen specification claims.

Modelling conventions:
  - JavaScript strings are Lean `String`; `undefined` fields are `Option`.
  - JS truthiness of an optional string (`undefined`, `""` falsy) is `truthy`.
  - JS `Map` is an association list with insertion-order semantics
    (`bufGet` / `bufSet`): setting an existing key updates it in place.
  - Timestamps (`Date.now()`) are explicit `Nat` parameters.
  - `JSON.parse` of tool arguments is an abstract decoder
    `decodeErr : String → Option String` (`some msg` models a throw).
  - Protocol exchanges (`fetch` + body) are modelled by the response status,
    the response body given as its list of lines, and an abstract JSON
    decoder for the single event-line payload.
-/

-- ===========================================================================
-- String constants appearing verbatim in src/index.ts
-- ===========================================================================

/-- Event-stream marker prefix checked by `_mcpRequest` (`"data: "`). -/
def dataMarker : String := "data: "

/-- Newline separator used to split the response body. -/
def lineSep : String := "\n"

/-- Prefix of generated fallback tool-call ids. -/
def callPrefix : String := "call_"

/-- Underscore joining timestamp and index in fallback ids. -/
def underscoreStr : String := "_"

/-- Prefix of tool-result contents produced from thrown errors. -/
def errPrefix : String := "Error: "

/-- Prefix of the argument-decode-failure tool-result content. -/
def invalidArgsPrefix : String := "Error: Invalid tool arguments - "

/-- The word prefixing tool names in several result messages. -/
def toolWord : String := "Tool "

/-- Suffix of the message for tools absent from every routing table. -/
def requiresExternalSuffix : String := " requires external execution"

/-- Suffix of the message when MCP is not available for a routed tool. -/
def notAvailableSuffix : String := " is not available (MCP server not connected)"

/-- Suffix of the `_callToolByName` not-found error message. -/
def notFoundSuffix : String := " not found on any connected MCP server"

/-- Prefix of the missing-server error message. -/
def serverNotFoundPrefix : String := "MCP server not found: "

/-- The word prefixing server names in the not-initialized message. -/
def serverWord : String := "Server "

/-- Suffix of the not-initialized error message. -/
def notInitializedSuffix : String := " is not initialized"

/-- Prefix of the command-transport tool-calling error message. -/
def commandCallPrefix : String := "Command-based tool calling not yet implemented for "

/-- Prefix of the framing-error message (`Invalid SSE response format`). -/
def framingPrefix : String := "Invalid SSE response format: "

/-- Prefix of the protocol-error message surfacing a remote `error` field. -/
def protocolPrefix : String := "MCP Error: "

/-- Prefix of non-success HTTP status error messages. -/
def httpWord : String := "HTTP "

/-- Colon-space separator used when composing error messages. -/
def colonSpace : String := ": "

/-- Prefix of the wrapped HTTP-server initialize failure message. -/
def initFailPrefix : String := "Failed to initialize HTTP server "

/-- The `_getServerType` invalid-configuration error message. -/
def invalidCfgMsg : String := "Invalid server configuration: must specify either command or url/type"

-- ===========================================================================
-- Streaming reconstructor (src/index.ts, _createStreamingWithTools 1236-1319)
-- ===========================================================================

/-- One tool-call delta of a streamed chunk: `chunk.choices[0].delta.tool_calls[k]`.
`id`, `function.name` and `function.arguments` may each be absent. -/
structure ToolCallDelta where
  index : Nat
  id : Option String
  name : Option String
  arguments : Option String
deriving DecidableEq, Repr

/-- A buffered (pending) tool call: the value stored in `toolCallsBuffer`
(`type` is always the string `function` and is omitted). -/
structure BufferedToolCall where
  id : String
  name : String
  arguments : String
deriving DecidableEq, Repr

/-- JS truthiness of an optional string: `undefined` and `""` are falsy. -/
def truthy : Option String → Bool
  | none => false
  | some s => !s.isEmpty

/-- The string carried by an optional field, `""` when absent. -/
def optD : Option String → String
  | none => ""
  | some s => s

/-- JS `v || dflt` on an optional string. -/
def jsOrString (v : Option String) (dflt : String) : String :=
  if truthy v then optD v else dflt

/-- Generated fallback id for a tool call created without an id. -/
def fallbackId (now index : Nat) : String :=
  callPrefix ++ toString now ++ underscoreStr ++ toString index

/-- Buffer entry created on the first delta for an index
(src/index.ts 1262-1269). -/
def seedEntry (now : Nat) (d : ToolCallDelta) : BufferedToolCall :=
  { id := jsOrString d.id (fallbackId now d.index)
  , name := jsOrString d.name ""
  , arguments := jsOrString d.arguments "" }

/-- Update of an existing buffer entry by a later delta for the same index
(src/index.ts 1271-1283): a truthy delta id replaces the stored one; truthy
name and arguments fragments are concatenated onto the stored ones. -/
def updateEntry (e : BufferedToolCall) (d : ToolCallDelta) : BufferedToolCall :=
  { id := if truthy d.id then optD d.id else e.id
  , name := if truthy d.name then e.name ++ optD d.name else e.name
  , arguments := if truthy d.arguments then e.arguments ++ optD d.arguments else e.arguments }

/-- The reconstruction buffer (JS `Map` from delta index to pending call),
as an insertion-ordered association list. -/
abbrev Buffer := List (Nat × BufferedToolCall)

/-- JS `Map.get`. -/
def bufGet : Buffer → Nat → Option BufferedToolCall
  | [], _ => none
  | (k, v) :: rest, i => if k = i then some v else bufGet rest i

/-- JS `Map.set`: update in place when the key exists, append otherwise. -/
def bufSet : Buffer → Nat → BufferedToolCall → Buffer
  | [], i, v => [(i, v)]
  | (k, w) :: rest, i, v => if k = i then (i, v) :: rest else (k, w) :: bufSet rest i v

/-- Processing of one tool-call delta against the buffer
(src/index.ts 1258-1285). -/
def processToolCallDelta (now : Nat) (buf : Buffer) (d : ToolCallDelta) : Buffer :=
  match bufGet buf d.index with
  | none => bufSet buf d.index (seedEntry now d)
  | some e => bufSet buf d.index (updateEntry e d)

/-- Processing of a whole sequence of tool-call deltas. The fallback-id
timestamp is a fixed parameter of the run. -/
def processDeltas (now : Nat) (buf : Buffer) (ds : List ToolCallDelta) : Buffer :=
  ds.foldl (processToolCallDelta now) buf

/-- Concatenation of the name fragments of a delta sequence. -/
def concatNames : List ToolCallDelta → String
  | [] => ""
  | d :: ds => optD d.name ++ concatNames ds

/-- Concatenation of the arguments fragments of a delta sequence. -/
def concatArgs : List ToolCallDelta → String
  | [] => ""
  | d :: ds => optD d.arguments ++ concatArgs ds

/-- Post-stream finalization (src/index.ts 1304-1313): the buffer values,
filtered by the completeness check (truthy id and truthy function name). -/
def streamFinalize (buf : Buffer) : List BufferedToolCall :=
  (buf.map Prod.snd).filter (fun tc => !tc.id.isEmpty && !tc.name.isEmpty)

-- ===========================================================================
-- Tool execution routing (src/index.ts, _callToolByName 750-756,
-- _callToolOnServer 758-793, _callToolWithServers 1046-1093)
-- ===========================================================================

/-- A registered global server instance as seen by `_callToolOnServer`:
`call` models the `tools/call` exchange, already reduced to the final
extracted content on success or the thrown message on failure. -/
structure GlobalServer where
  initialized : Bool
  isCommand : Bool
  call : String → Except String String

/-- An ephemeral per-request server instance as seen by
`_callToolWithServers`: `listResult` models the `tools/list` exchange
(`none` is a throw), `call` models `tools/call` as above. -/
structure PerRequestServer where
  name : String
  initialized : Bool
  isCommand : Bool
  listResult : Option (List String)
  call : String → Except String String

/-- Per-turn execution environment: the arguments decoder (`JSON.parse`),
the global routing table `toolToServerMap`, the global registry, the
availability conjunction `mcpEnabled && mcpClient && instances.size > 0`,
and the per-request servers of this turn. -/
structure ExecEnv where
  decodeErr : String → Option String
  route : String → Option String
  servers : String → Option GlobalServer
  mcpAvailable : Bool
  perRequest : List PerRequestServer

/-- `_callToolByName` followed by `_callToolOnServer`: resolve the server via
the global routing table, then call the tool on it. -/
def callToolByName (toolName : String) (route : String → Option String)
    (servers : String → Option GlobalServer) : Except String String :=
  match route toolName with
  | none => .error (toolWord ++ toolName ++ notFoundSuffix)
  | some s =>
    match servers s with
    | none => .error (serverNotFoundPrefix ++ s)
    | some g =>
      if !g.initialized then .error (serverWord ++ s ++ notInitializedSuffix)
      else if g.isCommand then .error (commandCallPrefix ++ s)
      else g.call toolName

/-- `_callToolWithServers`: try each per-request server in order (skipping
uninitialized and command-based ones, and any whose list or call throws);
when none satisfies the call, fall back to the global routing table. -/
def callToolWithServers (toolName : String) (prs : List PerRequestServer)
    (route : String → Option String) (servers : String → Option GlobalServer) :
    Except String String :=
  match prs with
  | [] => callToolByName toolName route servers
  | s :: rest =>
    if s.initialized && !s.isCommand then
      match s.listResult with
      | some ts =>
        if toolName ∈ ts then
          match s.call toolName with
          | .ok c => .ok c
          | .error _ => callToolWithServers toolName rest route servers
        else callToolWithServers toolName rest route servers
      | none => callToolWithServers toolName rest route servers
    else callToolWithServers toolName rest route servers

/-- A tool-result conversation message (`role` is always the string tool). -/
structure ToolResultMsg where
  tool_call_id : String
  content : String
deriving DecidableEq, Repr

/-- Execution of one buffered tool call, producing its tool-result message
(the shared logic of src/index.ts 1350-1485 and 1553-1627): decode the
arguments, gate on membership in the global routing table and on MCP
availability, route through `_callToolWithServers`, and convert any thrown
error into an error-content result. -/
def executeToolCall (env : ExecEnv) (tc : BufferedToolCall) : ToolResultMsg :=
  match env.decodeErr tc.arguments with
  | some m => ⟨tc.id, invalidArgsPrefix ++ m⟩
  | none =>
    if (env.route tc.name).isSome then
      if env.mcpAvailable then
        match callToolWithServers tc.name env.perRequest env.route env.servers with
        | .ok c => ⟨tc.id, c⟩
        | .error m => ⟨tc.id, errPrefix ++ m⟩
      else ⟨tc.id, toolWord ++ tc.name ++ notAvailableSuffix⟩
    else ⟨tc.id, toolWord ++ tc.name ++ requiresExternalSuffix⟩

-- ===========================================================================
-- Turn orchestration (src/index.ts, _createStreamingWithTools 1295-1541 and
-- _processToolCalls 1543-1658)
-- ===========================================================================

/-- A conversation message: plain chat message, the accumulated assistant
message carrying tool calls, or a tool-result message. -/
inductive Msg
  | chat (role content : String)
  | assistantCalls (content : String) (tool_calls : List BufferedToolCall)
  | toolMsg (tool_call_id : String) (content : String)
deriving DecidableEq, Repr

/-- The fields of a completion request touched by the orchestration loop. -/
structure RequestOptions where
  messages : List Msg
  tools : Option (List String)
  tool_choice : Option String
  stream : Bool
deriving DecidableEq, Repr

/-- Conversion of a tool result into the conversation message appended
before the follow-up request. -/
def toolResultToMsg (r : ToolResultMsg) : Msg :=
  .toolMsg r.tool_call_id r.content

/-- Outcome of the post-stream phase of `_createStreamingWithTools`:
the finalized (executed) tool-call list, the tool results, and the
follow-up backend requests issued. -/
structure StreamOutcome where
  executed : List BufferedToolCall
  results : List ToolResultMsg
  followUps : List RequestOptions
deriving DecidableEq, Repr

/-- The post-stream phase of `_createStreamingWithTools`
(src/index.ts 1295-1541): return immediately when no tool-call delta was
seen; finalize and filter the buffer; when the filtered list is empty,
finish with no tool phase; otherwise execute each call sequentially and
issue exactly one follow-up streaming request with tools and tool_choice
removed and the transcript extended by the assistant message and the tool
results in execution order. -/
def streamPostStream (env : ExecEnv) (opts : RequestOptions)
    (hasToolCalls : Bool) (buf : Buffer) (content : String) : StreamOutcome :=
  if !hasToolCalls then ⟨[], [], []⟩
  else
    let tcs := streamFinalize buf
    if tcs.isEmpty then ⟨tcs, [], []⟩
    else
      let results := tcs.map (executeToolCall env)
      if results.isEmpty then ⟨tcs, results, []⟩
      else
        ⟨tcs, results,
          [{ opts with
              messages := opts.messages ++ Msg.assistantCalls content tcs :: results.map toolResultToMsg
            , tools := none
            , tool_choice := none }]⟩

/-- Outcome of `_processToolCalls` (non-streaming): follow-up backend
requests issued, and the metadata attached to the returned response. -/
structure NonStreamingOutcome where
  followUps : List RequestOptions
  mcpToolResults : List ToolResultMsg
  originalToolCalls : List BufferedToolCall
deriving DecidableEq, Repr

/-- `_processToolCalls` (src/index.ts 1543-1658): execute every tool call of
the response sequentially, attach the results, and when any result exists
issue exactly one follow-up request with tools and tool_choice deleted and
the transcript extended by the assistant message and the results. -/
def processToolCallsM (env : ExecEnv) (assistantMsg : Msg)
    (toolCalls : List BufferedToolCall) (originalOptions : RequestOptions) :
    NonStreamingOutcome :=
  let toolResults := toolCalls.map (executeToolCall env)
  if toolResults.isEmpty then
    { followUps := [], mcpToolResults := toolResults, originalToolCalls := toolCalls }
  else
    { followUps :=
        [{ originalOptions with
            messages := originalOptions.messages ++ assistantMsg :: toolResults.map toolResultToMsg
          , tools := none
          , tool_choice := none }]
    , mcpToolResults := toolResults
    , originalToolCalls := toolCalls }

-- ===========================================================================
-- Server registry (src/index.ts, initializeMCP 408-452,
-- _initializeMCPServer 454-484, _getServerStatus 857-882,
-- restartMCPServer 884-904)
-- ===========================================================================

/-- Result of one server start attempt, as observed by
`_initializeMCPServer`: success (with the negotiated session id) or a caught
failure message. -/
inductive ServerStartOutcome
  | success (sessionId : Option String)
  | failure (msg : String)
deriving DecidableEq, Repr

/-- A registered server instance (the fields of `MCPServerInstance` the
claims mention). -/
structure MCPInstanceModel where
  name : String
  initialized : Bool
  lastError : Option String
  sessionId : Option String
  startTime : Option Nat
deriving DecidableEq, Repr

/-- `_initializeMCPServer` for one server: the instance is created
uninitialized with the start timestamp, then the start attempt either marks
it initialized or records the caught failure as `lastError`. -/
def initializeMCPServerM (now : Nat) (name : String) (o : ServerStartOutcome) :
    MCPInstanceModel :=
  let base : MCPInstanceModel :=
    { name := name, initialized := false, lastError := none
    , sessionId := none, startTime := some now }
  match o with
  | .success sid => { base with initialized := true, sessionId := sid }
  | .failure m => { base with lastError := some m }

/-- `initializeMCP`: the batch start. Every server's attempt is settled
independently (`Promise.allSettled` over per-server attempts that catch
their own errors), so the registry is the per-server results, pointwise. -/
def initializeMCPM (now : Nat) (batch : List (String × ServerStartOutcome)) :
    List (String × MCPInstanceModel) :=
  batch.map (fun p => (p.1, initializeMCPServerM now p.1 p.2))

/-- Derived server status values. -/
inductive ServerStatusKind
  | connected
  | disconnected
  | error
  | starting
deriving DecidableEq, Repr

/-- The status report built by `_getServerStatus`. -/
structure MCPServerStatusModel where
  name : String
  status : ServerStatusKind
  lastError : Option String
  uptime : Option Nat
deriving DecidableEq, Repr

/-- `_getServerStatus` (src/index.ts 857-882): connected when initialized,
else error when a last error is recorded, else disconnected; uptime is
`Date.now() - startTime` whenever a start timestamp is present. -/
def getServerStatusM (now : Nat) (inst : MCPInstanceModel) : MCPServerStatusModel :=
  { name := inst.name
  , status :=
      if inst.initialized then .connected
      else if inst.lastError.isSome then .error
      else .disconnected
  , lastError := inst.lastError
  , uptime :=
      match inst.startTime with
      | some t => some (now - t)
      | none => none }

-- ===========================================================================
-- HTTP protocol client (src/index.ts, _mcpRequest 577-637,
-- _initializeHttpServer 540-575)
-- ===========================================================================

/-- Error kinds thrown by `_mcpRequest`. -/
inductive MCPError
  | httpStatus (status : Nat) (statusText : String)
  | framing (body : String)
  | protocol (msg : String)
deriving DecidableEq, Repr

/-- The JSON-decoded event-line payload, reduced to the fields `_mcpRequest`
and `_initializeHttpServer` inspect: the `error` field (its message when
present) and the truthiness of `result`. -/
structure Payload where
  error : Option String
  result : Bool

/-- The thrown message of each `_mcpRequest` error. -/
def mcpErrMsg : MCPError → String
  | .httpStatus st stext => httpWord ++ toString st ++ colonSpace ++ stext
  | .framing body => framingPrefix ++ body
  | .protocol m => protocolPrefix ++ m

/-- Does a body line begin with the fixed event-stream data marker? -/
def beginsWithMarker (l : String) : Bool :=
  dataMarker.data.isPrefixOf l.data

/-- JS `line.substring(6)`: the line with the marker stripped. -/
def dropMarker (l : String) : String :=
  String.mk (l.data.drop 6)

/-- Join of the body lines back into the body text (used in the framing
error message, which carries the whole body). -/
def joinLines : List String → String
  | [] => ""
  | [l] => l
  | l :: ls => l ++ lineSep ++ joinLines ls

/-- `_mcpRequest` (src/index.ts 603-637): a non-2xx status is an HTTP error;
the body must contain a line beginning with the data marker, whose remainder
is JSON-decoded; a decoded `error` field is surfaced as a protocol error
carrying the provider's message. The body is given as its list of lines
(the code splits the trimmed text on newlines), `parse` models `JSON.parse`
on the event line. -/
def mcpRequestM (status : Nat) (statusText : String) (bodyLines : List String)
    (parse : String → Payload) : Except MCPError Payload :=
  if status < 200 ∨ 300 ≤ status then .error (.httpStatus status statusText)
  else
    match (bodyLines.find? beginsWithMarker).map dropMarker with
    | none => .error (.framing (joinLines bodyLines))
    | some d =>
      if d.isEmpty then .error (.framing (joinLines bodyLines))
      else
        match (parse d).error with
        | some m => .error (.protocol m)
        | none => .ok (parse d)

/-- The wrapped failure message thrown by `_initializeHttpServer`. -/
def initFailMsg (name msg : String) : String :=
  initFailPrefix ++ name ++ colonSpace ++ msg

/-- `_initializeMCPServer` for an HTTP server whose `initialize` exchange is
given (src/index.ts 454-484 and 540-575): on a thrown exchange error the
wrapped message is recorded as `lastError` and the instance stays
uninitialized; on success with a truthy `result` the session id is stored
and the instance becomes initialized. -/
def initializeHttpInstanceM (now : Nat) (name : String)
    (exch : Except MCPError Payload) (sid : Option String) : MCPInstanceModel :=
  let base : MCPInstanceModel :=
    { name := name, initialized := false, lastError := none
    , sessionId := none, startTime := some now }
  match exch with
  | .error e => { base with lastError := some (initFailMsg name (mcpErrMsg e)) }
  | .ok p => if p.result then { base with initialized := true, sessionId := sid } else base

-- ===========================================================================
-- Tool catalog cache (src/index.ts, getMCPTools 639-662,
-- restartMCPServer 884-904)
-- ===========================================================================

/-- The duration of the tool-catalog cache window (`CACHE_DURATION`). -/
def CACHE_DURATION : Nat := 30000

/-- The SDK state read and written by `getMCPTools` and
`restartMCPServer`. -/
structure SDKCacheState where
  mcpEnabled : Bool
  instances : List (String × MCPInstanceModel)
  mcpToolsCache : Option (List String)
  mcpLastCacheTime : Nat
deriving DecidableEq, Repr

/-- Result of a `getMCPTools` call: the returned list, whether any server
was contacted, and the updated state. -/
structure GetToolsResult where
  tools : List String
  contactedServers : Bool
  state : SDKCacheState
deriving DecidableEq, Repr

/-- The cache-miss tail of `getMCPTools` (src/index.ts 650-661): return the
empty list when MCP is disabled or no server is registered, otherwise query
the servers (`fresh` models the `_getMCPToolsInternal` merge) and store the
new capture. -/
def getToolsFresh (now : Nat) (fresh : List String) (st : SDKCacheState) :
    GetToolsResult :=
  if !st.mcpEnabled || st.instances.isEmpty then ⟨[], false, st⟩
  else ⟨fresh, true, { st with mcpToolsCache := some fresh, mcpLastCacheTime := now }⟩

/-- `getMCPTools` (src/index.ts 639-662): return the cached list without
contacting any server when a capture exists and is younger than the TTL;
otherwise rebuild. -/
def getMCPToolsM (now : Nat) (fresh : List String) (st : SDKCacheState) :
    GetToolsResult :=
  match st.mcpToolsCache with
  | some cached =>
    if now - st.mcpLastCacheTime < CACHE_DURATION then ⟨cached, false, st⟩
    else getToolsFresh now fresh st
  | none => getToolsFresh now fresh st

/-- `restartMCPServer` (src/index.ts 884-904): kill the process, reset the
named instance's state and re-run its start sequence. The cache fields are
not touched by the code. -/
def restartMCPServerM (now : Nat) (name : String) (o : ServerStartOutcome)
    (st : SDKCacheState) : SDKCacheState :=
  { st with
      instances := st.instances.map
        (fun p => if p.1 = name then (p.1, initializeMCPServerM now p.1 o) else p) }

-- ===========================================================================
-- Per-request server lifecycle and cleanup (src/index.ts,
-- _initializePerRequestServers 946-984, _cleanupPerRequestServers 1037-1044,
-- createWithMCPTools 1130-1213)
-- ===========================================================================

/-- The shape of one per-request server definition, as classified by
`_getServerType`: a command config (with its spawn outcome), an HTTP config
(with its initialize outcome), or an invalid config (neither command nor
url/type), on which `_getServerType` throws. -/
inductive PRConfigKind
  | commandCfg (startOk : Bool)
  | httpCfg (initOk : Bool)
  | invalidCfg
deriving DecidableEq, Repr

/-- A per-request instance as stored in the per-request map. -/
structure PRInstanceModel where
  name : String
  isCommand : Bool
  hasProcess : Bool
  initialized : Bool
deriving DecidableEq, Repr

/-- The operating-system process state: every spawned subprocess with its
aliveness flag. -/
structure ProcState where
  procs : List (String × Bool)
deriving DecidableEq, Repr

/-- `_initializePerRequestServers` (src/index.ts 946-984): servers are
started one by one; per-server start failures are caught and recorded on
the instance, but an invalid configuration makes `_getServerType` throw
outside the per-server try, aborting the loop: the function then returns no
map at all, while subprocesses spawned for earlier entries remain in the
process state. -/
def initPerRequestServers :
    List (String × PRConfigKind) → ProcState →
    Except String (List PRInstanceModel) × ProcState
  | [], st => (.ok [], st)
  | (_, .invalidCfg) :: _, st => (.error invalidCfgMsg, st)
  | (n, .commandCfg ok) :: rest, st =>
    let st1 : ProcState := ⟨st.procs ++ [(n, true)]⟩
    let inst : PRInstanceModel := ⟨n, true, true, ok⟩
    match initPerRequestServers rest st1 with
    | (.ok insts, st2) => (.ok (inst :: insts), st2)
    | (.error e, st2) => (.error e, st2)
  | (n, .httpCfg ok) :: rest, st =>
    let inst : PRInstanceModel := ⟨n, false, false, ok⟩
    match initPerRequestServers rest st with
    | (.ok insts, st2) => (.ok (inst :: insts), st2)
    | (.error e, st2) => (.error e, st2)

/-- `_cleanupPerRequestServers` (src/index.ts 1037-1044): kill the process
of every command-based instance present in the given per-request map. -/
def killProcs (insts : List PRInstanceModel) (st : ProcState) : ProcState :=
  ⟨st.procs.map
    (fun p => if insts.any (fun i => i.isCommand && i.hasProcess && i.name == p.1)
              then (p.1, false) else p)⟩

/-- Abstract outcome of the phases after per-request assembly (the backend
call, tool processing, and follow-up): either the turn completes or an
exception propagates. -/
inductive BackendOutcome
  | succeeds
  | throwsWith (msg : String)
deriving DecidableEq, Repr

/-- `createWithMCPTools` (src/index.ts 1130-1213), reduced to its resource
behaviour: the outer `perRequestServers` variable starts as the empty map;
per-request assembly either replaces it or throws (leaving it empty); the
`finally` block always runs `_cleanupPerRequestServers` on whatever the
variable holds when the turn reaches its terminal state. -/
def createWithMCPToolsM (mcpServers : Option (List (String × PRConfigKind)))
    (backend : BackendOutcome) (st : ProcState) : Except String Unit × ProcState :=
  match mcpServers with
  | none =>
    match backend with
    | .succeeds => (.ok (), st)
    | .throwsWith m => (.error m, st)
  | some cfgs =>
    match initPerRequestServers cfgs st with
    | (.error e, st1) => (.error e, killProcs [] st1)
    | (.ok insts, st1) =>
      match backend with
      | .succeeds => (.ok (), killProcs insts st1)
      | .throwsWith m => (.error m, killProcs insts st1)

-- ===========================================================================
-- Concrete instances used by witnesses and counterexamples
-- ===========================================================================

/-- A sample tool name. -/
def toolT : String := "t"

/-- A sample tool-call id. -/
def idOne : String := "id1"

/-- The content returned by the sample global server. -/
def answer42 : String := "42"

/-- The content returned by the sample per-request server. -/
def prAnswer : String := "per_request_result"

/-- A minimal well-formed arguments text (an empty JSON object). -/
def emptyJson : String := "\x7b\x7d"

/-- A sample global server name. -/
def srvFs : String := "fs"

/-- A second sample server name. -/
def srvDb : String := "db"

/-- A sample failure message. -/
def msgBoom : String := "boom"

/-- A sample per-request server name. -/
def tempA : String := "temp_a"

/-- A second sample per-request server name. -/
def tempB : String := "temp_b"

/-- A sample HTTP status text. -/
def okText : String := "OK"

/-- A body line that carries no event-stream marker. -/
def helloStr : String := "hello"

/-- A body line carrying the marker and a payload the decoder maps to an
error field. -/
def dataErrLine : String := "data: x"

/-- A decoder whose payload has no error field and a falsy result. -/
def noErrParse : String → Payload := fun _ => ⟨none, false⟩

/-- A decoder whose payload carries an error field with a message. -/
def errParse : String → Payload := fun _ => ⟨some msgBoom, true⟩

/-- A sample chat role. -/
def roleUser : String := "user"

/-- A sample tool-choice value. -/
def autoStr : String := "auto"

/-- A sample assistant content accumulated over a stream. -/
def altContent : String := "working on it"

/-- Cached and fresh sample tool names for the catalog cache. -/
def oldTool : String := "old_tool"

/-- Fresh sample tool name for the catalog cache after a restart. -/
def newTool : String := "new_tool"

/-- Full reconstructed function name of the streaming scenario. -/
def gwFullName : String := "get_weather"

/-- Id delivered by the first delta of the streaming scenario. -/
def gwId : String := "call_1"

/-- First delta of the chunked streaming scenario (carries the id). -/
def gwD0 : ToolCallDelta :=
  { index := 0, id := some gwId, name := some "get_", arguments := some "\x7b\"city\":" }

/-- Later deltas of the chunked streaming scenario (no ids). -/
def gwRest : List ToolCallDelta :=
  [ { index := 0, id := none, name := some "weath", arguments := some "\"Par" }
  , { index := 0, id := none, name := some "er", arguments := some "is\"\x7d" } ]

/-- Expected fully reconstructed arguments text of the scenario. -/
def gwFullArgs : String := "\x7b\"city\":\"Paris\"\x7d"

/-- A delta creating an entry without any id. -/
def gwNoIdDelta : ToolCallDelta :=
  { index := 0, id := none, name := some gwFullName, arguments := none }

/-- The per-request server of the routing scenario: initialized, HTTP-based,
offering the sample tool. -/
def c1PrServer : PerRequestServer :=
  { name := tempA, initialized := true, isCommand := false
  , listResult := some [toolT], call := fun _ => .ok prAnswer }

/-- Routing environment in which the sample tool is offered only by the
per-request server (absent from the global routing table). -/
def c1Env : ExecEnv :=
  { decodeErr := fun _ => none
  , route := fun _ => none
  , servers := fun _ => none
  , mcpAvailable := true
  , perRequest := [c1PrServer] }

/-- The tool call requesting the sample tool. -/
def c1Tc : BufferedToolCall := ⟨idOne, toolT, emptyJson⟩

/-- A global registry carrying one connected HTTP server. -/
def c1bServers : String → Option GlobalServer :=
  fun s => if s = srvFs then some ⟨true, false, fun _ => .ok answer42⟩ else none

/-- Routing environment in which the sample tool is in the global routing
table and also offered by the per-request server. -/
def c1bEnv : ExecEnv :=
  { decodeErr := fun _ => none
  , route := fun n => if n = toolT then some srvFs else none
  , servers := c1bServers
  , mcpAvailable := true
  , perRequest := [c1PrServer] }

/-- A benign execution environment: the sample tool routes to the sample
global server, no per-request servers. -/
def demoEnv : ExecEnv :=
  { decodeErr := fun _ => none
  , route := fun n => if n = toolT then some srvFs else none
  , servers := c1bServers
  , mcpAvailable := true
  , perRequest := [] }

/-- A sample request. -/
def demoOpts : RequestOptions :=
  { messages := [Msg.chat roleUser helloStr]
  , tools := some [toolT]
  , tool_choice := some autoStr
  , stream := true }

/-- A buffer holding one complete entry and one entry with an empty id. -/
def demoBuf : Buffer :=
  [(0, ⟨idOne, toolT, emptyJson⟩), (1, ⟨"", gwFullName, ""⟩)]

/-- Cache state of the invalidation scenario: one connected server and a
catalog captured at time 0. -/
def c3State : SDKCacheState :=
  { mcpEnabled := true
  , instances := [(srvFs, initializeMCPServerM 0 srvFs (.success none))]
  , mcpToolsCache := some [oldTool]
  , mcpLastCacheTime := 0 }

-- ===========================================================================
-- Helper lemmas
-- ===========================================================================

/-- A falsy optional string carries the empty string. -/
theorem truthy_false_optD {o : Option String} (h : truthy o = false) : optD o = "" := by
  cases o with
  | none => rfl
  | some s =>
    simp only [truthy, Bool.not_eq_false'] at h
    simpa [optD] using (String.isEmpty_iff s).mp h

/-- A truthy optional string carries a non-empty string. -/
theorem truthy_true_ne {o : Option String} (h : truthy o = true) : optD o ≠ "" := by
  cases o with
  | none => simp [truthy] at h
  | some s =>
    simp only [truthy, Bool.not_eq_true'] at h
    intro he
    change s = "" at he
    subst he
    exact absurd h (by decide)

/-- Guarded concatenation of an optional fragment equals plain concatenation
of the carried string. -/
theorem jsAppend_eq (e : String) (o : Option String) :
    (if truthy o then e ++ optD o else e) = e ++ optD o := by
  cases h : truthy o with
  | true => simp
  | false => simp [truthy_false_optD h, String.append_empty]

/-- JS `v || ""` is just the carried string. -/
theorem jsOrString_empty (o : Option String) : jsOrString o "" = optD o := by
  rw [jsOrString]
  cases h : truthy o with
  | true => simp
  | false => simp [truthy_false_optD h]

/-- An id-less delta leaves the stored id and appends both fragments. -/
theorem updateEntry_noId (e : BufferedToolCall) (d : ToolCallDelta) (h : d.id = none) :
    updateEntry e d = ⟨e.id, e.name ++ optD d.name, e.arguments ++ optD d.arguments⟩ := by
  rw [updateEntry, h, jsAppend_eq e.name d.name, jsAppend_eq e.arguments d.arguments]
  rfl

/-- Lookup on a singleton buffer. -/
theorem bufGet_single (i : Nat) (e : BufferedToolCall) : bufGet [(i, e)] i = some e := by
  simp [bufGet]

/-- Update of a singleton buffer. -/
theorem bufSet_single (i : Nat) (e v : BufferedToolCall) : bufSet [(i, e)] i v = [(i, v)] := by
  simp [bufSet]

/-- Unfolding of delta processing over a cons. -/
theorem processDeltas_cons (now : Nat) (buf : Buffer) (d : ToolCallDelta)
    (ds : List ToolCallDelta) :
    processDeltas now buf (d :: ds) = processDeltas now (processToolCallDelta now buf d) ds := rfl

/-- Delta processing when no entry exists for the delta's index. -/
theorem processToolCallDelta_new (now : Nat) (buf : Buffer) (d : ToolCallDelta)
    (hg : bufGet buf d.index = none) :
    processToolCallDelta now buf d = bufSet buf d.index (seedEntry now d) := by
  rw [processToolCallDelta, hg]

/-- Delta processing when an entry exists for the delta's index. -/
theorem processToolCallDelta_existing (now : Nat) (buf : Buffer) (d : ToolCallDelta)
    (e : BufferedToolCall) (hg : bufGet buf d.index = some e) :
    processToolCallDelta now buf d = bufSet buf d.index (updateEntry e d) := by
  rw [processToolCallDelta, hg]

/-- Folding id-less same-index deltas over a singleton buffer concatenates
their fragments onto the stored entry. -/
theorem processDeltas_singleton (now i : Nat) (rest : List ToolCallDelta) :
    ∀ e : BufferedToolCall, (∀ d ∈ rest, d.index = i ∧ d.id = none) →
      processDeltas now [(i, e)] rest
        = [(i, ⟨e.id, e.name ++ concatNames rest, e.arguments ++ concatArgs rest⟩)] := by
  induction rest with
  | nil =>
    intro e _
    simp [processDeltas, concatNames, concatArgs, String.append_empty]
  | cons d ds ih =>
    intro e h
    obtain ⟨⟨hidx, hid⟩, hrest⟩ := List.forall_mem_cons.mp h
    rw [processDeltas_cons,
      processToolCallDelta_existing now [(i, e)] d e (by rw [hidx]; exact bufGet_single i e),
      hidx, bufSet_single, updateEntry_noId e d hid, ih _ hrest]
    simp [concatNames, concatArgs, String.append_assoc]

/-- Membership in an updated buffer comes from the new pair or the old
buffer. -/
theorem mem_bufSet (buf : Buffer) (i : Nat) (v : BufferedToolCall)
    (p : Nat × BufferedToolCall) (hp : p ∈ bufSet buf i v) : p = (i, v) ∨ p ∈ buf := by
  induction buf with
  | nil =>
    simp [bufSet] at hp
    exact Or.inl hp
  | cons q rest ih =>
    rw [bufSet] at hp
    by_cases hk : q.1 = i
    · rw [if_pos hk] at hp
      rcases List.mem_cons.mp hp with h1 | h1
      · exact Or.inl h1
      · exact Or.inr (List.mem_cons_of_mem _ h1)
    · rw [if_neg hk] at hp
      rcases List.mem_cons.mp hp with h1 | h1
      · exact Or.inr (h1 ▸ List.mem_cons_self _ _)
      · rcases ih h1 with h2 | h2
        · exact Or.inl h2
        · exact Or.inr (List.mem_cons_of_mem _ h2)

/-- A successful lookup is a member of the buffer. -/
theorem bufGet_mem (buf : Buffer) (i : Nat) (e : BufferedToolCall)
    (h : bufGet buf i = some e) : (i, e) ∈ buf := by
  induction buf with
  | nil => simp [bufGet] at h
  | cons q rest ih =>
    rw [bufGet] at h
    by_cases hk : q.1 = i
    · rw [if_pos hk] at h
      have : q = (i, e) := by
        cases q
        simp_all
      exact this ▸ List.mem_cons_self _ _
    · rw [if_neg hk] at h
      exact List.mem_cons_of_mem _ (ih h)

/-- Generated fallback ids are never empty. -/
theorem fallbackId_ne_empty (now i : Nat) : fallbackId now i ≠ "" := by
  intro h
  have hd : (callPrefix ++ toString now ++ underscoreStr ++ toString i).data
      = ("" : String).data := congrArg String.data h
  rw [String.data_append, String.data_append, String.data_append] at hd
  have hnil : ("" : String).data = [] := rfl
  rw [hnil] at hd
  have h1 : callPrefix.data = [] :=
    (List.append_eq_nil.mp (List.append_eq_nil.mp (List.append_eq_nil.mp hd).1).1).1
  exact absurd h1 (by decide)

/-- A freshly created buffer entry has a non-empty id. -/
theorem seedEntry_id_ne (now : Nat) (d : ToolCallDelta) : (seedEntry now d).id ≠ "" := by
  show jsOrString d.id (fallbackId now d.index) ≠ ""
  rw [jsOrString]
  cases h : truthy d.id with
  | true => simpa using truthy_true_ne h
  | false => simpa using fallbackId_ne_empty now d.index

/-- Updating an entry preserves non-emptiness of the id. -/
theorem updateEntry_id_ne (e : BufferedToolCall) (d : ToolCallDelta)
    (he : e.id ≠ "") : (updateEntry e d).id ≠ "" := by
  show (if truthy d.id then optD d.id else e.id) ≠ ""
  cases h : truthy d.id with
  | true => simpa using truthy_true_ne h
  | false => simpa using he

/-- Every entry of a buffer built by delta processing from a buffer of
non-empty-id entries has a non-empty id. -/
theorem processDeltas_id_ne (now : Nat) (ds : List ToolCallDelta) :
    ∀ buf : Buffer, (∀ p ∈ buf, (p : Nat × BufferedToolCall).2.id ≠ "") →
      ∀ p ∈ processDeltas now buf ds, (p : Nat × BufferedToolCall).2.id ≠ "" := by
  induction ds with
  | nil =>
    intro buf h
    simpa [processDeltas] using h
  | cons d ds ih =>
    intro buf h
    rw [processDeltas_cons]
    apply ih
    intro p hp
    rw [processToolCallDelta] at hp
    cases hg : bufGet buf d.index with
    | none =>
      rw [hg] at hp
      rcases mem_bufSet _ _ _ _ hp with h1 | h1
      · rw [h1]
        exact seedEntry_id_ne now d
      · exact h _ h1
    | some e =>
      rw [hg] at hp
      rcases mem_bufSet _ _ _ _ hp with h1 | h1
      · rw [h1]
        exact updateEntry_id_ne e d (h _ (bufGet_mem _ _ _ hg))
      · exact h _ h1

-- ===========================================================================
-- Claim theorems
-- ===========================================================================

/-- C5: streaming reconstruction is chunking-invariant: feeding any split of
a tool call's function-name and arguments strings as successive same-index
deltas (the id on the first delta) through the reconstruction buffer yields
the same buffer, and hence the same finalized tool call, as delivering the
whole strings in a single delta. -/
theorem C5_chunking_invariant (now i : Nat) (d0 : ToolCallDelta)
    (rest : List ToolCallDelta) (h0 : d0.index = i)
    (hr : ∀ d ∈ rest, d.index = i ∧ d.id = none) :
    processDeltas now [] (d0 :: rest)
      = processDeltas now []
          [{ index := i, id := d0.id
           , name := some (concatNames (d0 :: rest))
           , arguments := some (concatArgs (d0 :: rest)) }]
    ∧ streamFinalize (processDeltas now [] (d0 :: rest))
      = streamFinalize (processDeltas now []
          [{ index := i, id := d0.id
           , name := some (concatNames (d0 :: rest))
           , arguments := some (concatArgs (d0 :: rest)) }]) := by
  subst h0
  have hL : processDeltas now [] (d0 :: rest)
      = [(d0.index, ⟨(seedEntry now d0).id, (seedEntry now d0).name ++ concatNames rest,
          (seedEntry now d0).arguments ++ concatArgs rest⟩)] := by
    rw [processDeltas_cons, processToolCallDelta_new now [] d0 rfl]
    exact processDeltas_singleton now d0.index rest (seedEntry now d0) hr
  have hR : processDeltas now []
        [({ index := d0.index, id := d0.id
          , name := some (concatNames (d0 :: rest))
          , arguments := some (concatArgs (d0 :: rest)) } : ToolCallDelta)]
      = [(d0.index, seedEntry now
          { index := d0.index, id := d0.id
          , name := some (concatNames (d0 :: rest))
          , arguments := some (concatArgs (d0 :: rest)) })] := by
    rw [processDeltas_cons, processToolCallDelta_new now [] _ rfl]
    rfl
  have h1 : processDeltas now [] (d0 :: rest)
      = processDeltas now []
          [{ index := d0.index, id := d0.id
           , name := some (concatNames (d0 :: rest))
           , arguments := some (concatArgs (d0 :: rest)) }] := by
    rw [hL, hR]
    simp only [seedEntry, jsOrString_empty, optD, concatNames, concatArgs]
  exact ⟨h1, congrArg streamFinalize h1⟩

/-- C5 witness: the three-chunk scenario reconstructing the call
get_weather with arguments split across the deltas equals the unchunked
delivery, and finalizes to the expected tool call. -/
theorem C5_witness :
    (gwD0.index = 0 ∧ ∀ d ∈ gwRest, d.index = 0 ∧ d.id = none)
    ∧ processDeltas 7 [] (gwD0 :: gwRest)
      = processDeltas 7 []
          [{ index := 0, id := gwD0.id
           , name := some (concatNames (gwD0 :: gwRest))
           , arguments := some (concatArgs (gwD0 :: gwRest)) }]
    ∧ streamFinalize (processDeltas 7 [] (gwD0 :: gwRest))
      = [⟨gwId, gwFullName, gwFullArgs⟩] :=
  ⟨⟨rfl, by decide⟩,
   (C5_chunking_invariant 7 0 gwD0 gwRest rfl (by decide)).1,
   by decide⟩

/-- C10: every entry of the reconstruction buffer built from a delta stream
has a non-empty id (a new entry without a delta id receives the generated
fallback id), so the post-stream completeness filter can only exclude an
entry because its function name is empty. -/
theorem C10_nonempty_ids (now : Nat) (ds : List ToolCallDelta) :
    (∀ p ∈ processDeltas now [] ds, (p : Nat × BufferedToolCall).2.id ≠ "")
    ∧ streamFinalize (processDeltas now [] ds)
      = ((processDeltas now [] ds).map Prod.snd).filter (fun tc => !tc.name.isEmpty) := by
  have hids := processDeltas_id_ne now ds [] (by intro p hp; simp at hp)
  refine ⟨hids, ?_⟩
  rw [streamFinalize]
  apply List.filter_congr
  intro tc htc
  obtain ⟨p, hp, hptc⟩ := List.mem_map.mp htc
  have hne : tc.id ≠ "" := hptc ▸ hids p hp
  have hie : tc.id.isEmpty = false := by
    cases hi : tc.id.isEmpty
    · rfl
    · exact absurd ((String.isEmpty_iff tc.id).mp hi) hne
  simp [hie]

/-- C10 witness: a single delta without an id produces an entry carrying
the generated fallback id, and the finalization filter reduces to the
name-only filter. -/
theorem C10_witness :
    streamFinalize (processDeltas 3 [] [gwNoIdDelta])
      = ((processDeltas 3 [] [gwNoIdDelta]).map Prod.snd).filter (fun tc => !tc.name.isEmpty)
    ∧ streamFinalize (processDeltas 3 [] [gwNoIdDelta])
      = [⟨fallbackId 3 0, gwFullName, ""⟩] :=
  ⟨(C10_nonempty_ids 3 [gwNoIdDelta]).2, by decide⟩

/-- C4: after the initial stream, the executed list is exactly the buffer
entries with non-empty id and non-empty function name; the tool results are
the executions of exactly that list; when every entry is discarded (or no
tool-call delta was seen) no execution and no follow-up occur. -/
theorem C4_finalize_filter (env : ExecEnv) (opts : RequestOptions) (buf : Buffer)
    (content : String) :
    (streamPostStream env opts true buf content).executed = streamFinalize buf
    ∧ (streamPostStream env opts true buf content).results
        = (streamPostStream env opts true buf content).executed.map (executeToolCall env)
    ∧ (∀ tc : BufferedToolCall,
        tc ∈ (streamPostStream env opts true buf content).executed
          ↔ tc ∈ buf.map Prod.snd ∧ tc.id.isEmpty = false ∧ tc.name.isEmpty = false)
    ∧ (streamFinalize buf = [] →
        streamPostStream env opts true buf content = ⟨[], [], []⟩)
    ∧ (∀ b : Buffer, streamPostStream env opts false b content = ⟨[], [], []⟩) := by
  have hfalse : ∀ b : Buffer, streamPostStream env opts false b content = ⟨[], [], []⟩ := by
    intro b
    simp [streamPostStream]
  have hcases : (streamPostStream env opts true buf content).executed = streamFinalize buf
      ∧ (streamPostStream env opts true buf content).results
        = (streamFinalize buf).map (executeToolCall env) := by
    simp only [streamPostStream]
    cases h1 : (streamFinalize buf).isEmpty
    · cases h2 : ((streamFinalize buf).map (executeToolCall env)).isEmpty
      · simp [h1, h2]
      · simp [h1, h2]
    · have hnil : streamFinalize buf = [] := by simpa [List.isEmpty_iff] using h1
      simp [h1, hnil]
  obtain ⟨hexec, hres⟩ := hcases
  refine ⟨hexec, by rw [hres, hexec], ?_, ?_, hfalse⟩
  · intro tc
    rw [hexec, streamFinalize]
    constructor
    · intro h
      obtain ⟨hmem, hp⟩ := List.mem_filter.mp h
      simp only [Bool.and_eq_true, Bool.not_eq_true'] at hp
      exact ⟨hmem, hp.1, hp.2⟩
    · rintro ⟨hmem, hid, hnm⟩
      exact List.mem_filter.mpr ⟨hmem, by simp [hid, hnm]⟩
  · intro h
    simp [streamPostStream, h]

/-- C4 witness: for a buffer with one complete entry and one entry whose id
is empty, only the complete entry is executed; with no tool-call deltas the
outcome is empty. -/
theorem C4_witness :
    (streamPostStream demoEnv demoOpts true demoBuf altContent).executed = streamFinalize demoBuf
    ∧ (streamPostStream demoEnv demoOpts true demoBuf altContent).executed
        = [⟨idOne, toolT, emptyJson⟩]
    ∧ (streamPostStream demoEnv demoOpts true demoBuf altContent).results
        = [⟨idOne, answer42⟩]
    ∧ streamPostStream demoEnv demoOpts false demoBuf altContent = ⟨[], [], []⟩ :=
  ⟨(C4_finalize_filter demoEnv demoOpts demoBuf altContent).1, by decide, by decide,
   (C4_finalize_filter demoEnv demoOpts demoBuf altContent).2.2.2.2 demoBuf⟩

/-- C6: when executable tool calls are present, exactly one follow-up
request is issued (non-streaming and streaming); it omits tools and
tool_choice, its messages are the original messages, the assistant tool-call
message and the tool results in execution order, and the non-streaming
response is augmented with the original tool calls and the tool results. -/
theorem C6_single_followup (env : ExecEnv) (assistantMsg : Msg)
    (toolCalls : List BufferedToolCall) (opts : RequestOptions)
    (buf : Buffer) (content : String)
    (hnc : toolCalls ≠ []) (hbuf : streamFinalize buf ≠ []) :
    (processToolCallsM env assistantMsg toolCalls opts).followUps
      = [{ opts with
            messages := opts.messages
              ++ assistantMsg :: (toolCalls.map (executeToolCall env)).map toolResultToMsg
          , tools := none, tool_choice := none }]
    ∧ (processToolCallsM env assistantMsg toolCalls opts).mcpToolResults
        = toolCalls.map (executeToolCall env)
    ∧ (processToolCallsM env assistantMsg toolCalls opts).originalToolCalls = toolCalls
    ∧ (streamPostStream env opts true buf content).followUps
      = [{ opts with
            messages := opts.messages
              ++ Msg.assistantCalls content (streamFinalize buf)
                :: ((streamFinalize buf).map (executeToolCall env)).map toolResultToMsg
          , tools := none, tool_choice := none }] := by
  have hempty : (toolCalls.map (executeToolCall env)).isEmpty = false := by
    simp [List.isEmpty_iff, List.map_eq_nil_iff]
    exact hnc
  have hfe : (streamFinalize buf).isEmpty = false := by
    simpa [List.isEmpty_iff] using hbuf
  have hre : ((streamFinalize buf).map (executeToolCall env)).isEmpty = false := by
    simp [List.isEmpty_iff, List.map_eq_nil_iff]
    exact hbuf
  refine ⟨?_, ?_, ?_, ?_⟩
  · simp [processToolCallsM, hempty]
  · simp [processToolCallsM, hempty]
  · simp [processToolCallsM, hempty]
  · simp [streamPostStream, hfe, hre]

/-- C6 witness: the follow-up of a one-call turn omits tools and
tool_choice and extends the transcript as stated, on both paths. -/
theorem C6_witness :
    (processToolCallsM demoEnv (Msg.chat roleUser helloStr)
        [⟨idOne, toolT, emptyJson⟩] demoOpts).followUps
      = [{ demoOpts with
            messages := demoOpts.messages
              ++ Msg.chat roleUser helloStr
                :: (([(⟨idOne, toolT, emptyJson⟩ : BufferedToolCall)].map
                      (executeToolCall demoEnv)).map toolResultToMsg)
          , tools := none, tool_choice := none }]
    ∧ (streamPostStream demoEnv demoOpts true demoBuf altContent).followUps
      = [{ demoOpts with
            messages := demoOpts.messages
              ++ Msg.assistantCalls altContent (streamFinalize demoBuf)
                :: ((streamFinalize demoBuf).map (executeToolCall demoEnv)).map toolResultToMsg
          , tools := none, tool_choice := none }] :=
  ⟨(C6_single_followup demoEnv (Msg.chat roleUser helloStr) [⟨idOne, toolT, emptyJson⟩]
      demoOpts demoBuf altContent (by decide) (by decide)).1,
   (C6_single_followup demoEnv (Msg.chat roleUser helloStr) [⟨idOne, toolT, emptyJson⟩]
      demoOpts demoBuf altContent (by decide) (by decide)).2.2.2⟩

/-- C7: batch initialization settles every server independently: the
registry entry of a server depends only on its own outcome (unchanged by
the surrounding batch), a failure is recorded as that instance's lastError
without propagating, and a succeeding server becomes initialized regardless
of the other servers' outcomes. -/
theorem C7_independent_init (now : Nat) (pre post : List (String × ServerStartOutcome))
    (n : String) (o : ServerStartOutcome) :
    initializeMCPM now (pre ++ (n, o) :: post)
      = initializeMCPM now pre
        ++ (n, initializeMCPServerM now n o) :: initializeMCPM now post
    ∧ (∀ m, o = .failure m →
        (initializeMCPServerM now n o).initialized = false
        ∧ (initializeMCPServerM now n o).lastError = some m)
    ∧ (∀ sid, o = .success sid →
        (initializeMCPServerM now n o).initialized = true
        ∧ (initializeMCPServerM now n o).lastError = none) := by
  refine ⟨?_, ?_, ?_⟩
  · simp [initializeMCPM]
  · rintro m rfl
    simp [initializeMCPServerM]
  · rintro sid rfl
    simp [initializeMCPServerM]

/-- C7 witness: in a batch of a failing and a succeeding server, the
failing one records its error and the succeeding one is connected. -/
theorem C7_witness :
    initializeMCPM 10 ([(srvFs, .failure msgBoom)] ++ (srvDb, .success none) :: [])
      = initializeMCPM 10 [(srvFs, .failure msgBoom)]
        ++ (srvDb, initializeMCPServerM 10 srvDb (.success none)) :: initializeMCPM 10 []
    ∧ (initializeMCPServerM 10 srvDb (.success none)).initialized = true
    ∧ (initializeMCPServerM 10 srvFs (.failure msgBoom)).initialized = false
    ∧ (initializeMCPServerM 10 srvFs (.failure msgBoom)).lastError = some msgBoom :=
  ⟨(C7_independent_init 10 [(srvFs, .failure msgBoom)] [] srvDb (.success none)).1,
   ((C7_independent_init 10 [(srvFs, .failure msgBoom)] [] srvDb (.success none)).2.2 none rfl).1,
   ((C7_independent_init 10 [] [(srvDb, .success none)] srvFs (.failure msgBoom)).2.1 msgBoom rfl).1,
   ((C7_independent_init 10 [] [(srvDb, .success none)] srvFs (.failure msgBoom)).2.1 msgBoom rfl).2⟩

/-- C8: an HTTP exchange whose 2xx body contains no line beginning with the
data marker fails with the framing error, and a decoded payload carrying an
error field fails with a protocol error carrying the provider's message;
an initialize failing with the framing error leaves the instance
uninitialized, records the wrapped message as lastError, and derives the
error status. -/
theorem C8_protocol_errors (now now2 : Nat) (name statusText : String)
    (bodyLines : List String) (parse : String → Payload) (sid : Option String) :
    ((∀ l ∈ bodyLines, beginsWithMarker l = false) →
      mcpRequestM 200 statusText bodyLines parse
        = .error (.framing (joinLines bodyLines))
      ∧ (initializeHttpInstanceM now name
          (mcpRequestM 200 statusText bodyLines parse) sid).initialized = false
      ∧ (initializeHttpInstanceM now name
          (mcpRequestM 200 statusText bodyLines parse) sid).lastError
          = some (initFailMsg name (framingPrefix ++ joinLines bodyLines))
      ∧ (getServerStatusM now2 (initializeHttpInstanceM now name
          (mcpRequestM 200 statusText bodyLines parse) sid)).status = .error)
    ∧ (∀ l m, bodyLines.find? beginsWithMarker = some l →
        (dropMarker l).isEmpty = false →
        (parse (dropMarker l)).error = some m →
        mcpRequestM 200 statusText bodyLines parse = .error (.protocol m)) := by
  constructor
  · intro h
    have hfind : bodyLines.find? beginsWithMarker = none :=
      List.find?_eq_none.mpr (fun x hx => by simp [h x hx])
    have hreq : mcpRequestM 200 statusText bodyLines parse
        = .error (.framing (joinLines bodyLines)) := by
      rw [mcpRequestM, if_neg (by decide), hfind]
      rfl
    rw [hreq]
    refine ⟨rfl, ?_, ?_, ?_⟩
    · simp [initializeHttpInstanceM]
    · simp [initializeHttpInstanceM, mcpErrMsg]
    · simp [getServerStatusM, initializeHttpInstanceM]
  · intro l m hf hne hperr
    rw [mcpRequestM, if_neg (by decide), hf]
    simp [Option.map, hne, hperr]

/-- C8 witness: a marker-less body fails as a framing error; a body whose
event line decodes to an error payload fails as a protocol error with the
provider's message. -/
theorem C8_witness :
    (∀ l ∈ [helloStr], beginsWithMarker l = false)
    ∧ mcpRequestM 200 okText [helloStr] noErrParse
        = .error (.framing (joinLines [helloStr]))
    ∧ (initializeHttpInstanceM 4 srvFs
        (mcpRequestM 200 okText [helloStr] noErrParse) none).initialized = false
    ∧ mcpRequestM 200 okText [dataErrLine] errParse = .error (.protocol msgBoom) :=
  ⟨by decide,
   ((C8_protocol_errors 4 9 srvFs okText [helloStr] noErrParse none).1 (by decide)).1,
   ((C8_protocol_errors 4 9 srvFs okText [helloStr] noErrParse none).1 (by decide)).2.1,
   (C8_protocol_errors 4 9 srvFs okText [dataErrLine] errParse none).2
     dataErrLine msgBoom (by decide) (by decide) rfl⟩

/-- C9 counterexample: an instance whose start attempt failed (so it never
initialized) is still reported with an uptime computed from its start
timestamp, contradicting the claim that an instance that never initialized
is not reported with an uptime. -/
theorem C9_counterexample :
    (initializeMCPServerM 5 srvFs (.failure msgBoom)).initialized = false
    ∧ (getServerStatusM 100 (initializeMCPServerM 5 srvFs (.failure msgBoom))).status
        = .error
    ∧ (getServerStatusM 100 (initializeMCPServerM 5 srvFs (.failure msgBoom))).uptime
        = some 95 := by
  refine ⟨rfl, rfl, rfl⟩

/-- C9 amended: the status is derived as connected when initialized, else
error when a last error is recorded, else disconnected; the uptime is
now minus the start timestamp whenever a start timestamp is recorded,
regardless of whether the instance ever initialized. -/
theorem C9_status_amended (now : Nat) (inst : MCPInstanceModel) :
    (inst.initialized = true → (getServerStatusM now inst).status = .connected)
    ∧ (inst.initialized = false → inst.lastError.isSome = true →
        (getServerStatusM now inst).status = .error)
    ∧ (inst.initialized = false → inst.lastError = none →
        (getServerStatusM now inst).status = .disconnected)
    ∧ (getServerStatusM now inst).uptime = inst.startTime.map (fun t => now - t) := by
  refine ⟨?_, ?_, ?_, ?_⟩
  · intro h
    simp [getServerStatusM, h]
  · intro h1 h2
    simp [getServerStatusM, h1, h2]
  · intro h1 h2
    simp [getServerStatusM, h1, h2]
  · rw [getServerStatusM]
    cases hst : inst.startTime with
    | none => simp [hst]
    | some t => simp [hst]

/-- C9 witness: a connected instance reports the connected status and the
uptime computed from its start timestamp. -/
theorem C9_witness :
    (getServerStatusM 100 (initializeMCPServerM 5 srvDb (.success none))).status
      = .connected
    ∧ (getServerStatusM 100 (initializeMCPServerM 5 srvDb (.success none))).uptime
      = (initializeMCPServerM 5 srvDb (.success none)).startTime.map (fun t => 100 - t) :=
  ⟨(C9_status_amended 100 (initializeMCPServerM 5 srvDb (.success none))).1 rfl,
   (C9_status_amended 100 (initializeMCPServerM 5 srvDb (.success none))).2.2.2⟩

/-- C3 counterexample: with a catalog captured at time 0 and a server
restarted at time 1000, a getMCPTools call at time 2000 (within the TTL)
returns the pre-restart cached list without contacting any server,
contradicting the claim that a restart invalidates the cache. -/
theorem C3_counterexample :
    (getMCPToolsM 2000 [newTool] (restartMCPServerM 1000 srvFs (.success none) c3State)).tools
      = [oldTool]
    ∧ (getMCPToolsM 2000 [newTool]
        (restartMCPServerM 1000 srvFs (.success none) c3State)).contactedServers = false
    ∧ (restartMCPServerM 1000 srvFs (.success none) c3State).instances
      = [(srvFs, initializeMCPServerM 1000 srvFs (.success none))] := by
  refine ⟨by decide, by decide, by decide⟩

/-- C3 amended: the cached catalog is returned without contacting any server
exactly when a capture exists and is within the 30-second TTL; the cache is
invalidated only by TTL expiry (or by never having been captured); a server
restart does not touch the cache, so a getMCPTools call within the TTL after
a restart still returns the list captured before the restart. -/
theorem C3_cache_amended (now : Nat) (fresh : List String) (st : SDKCacheState) :
    (∀ cached, st.mcpToolsCache = some cached →
      now - st.mcpLastCacheTime < CACHE_DURATION →
      getMCPToolsM now fresh st = ⟨cached, false, st⟩)
    ∧ (CACHE_DURATION ≤ now - st.mcpLastCacheTime ∨ st.mcpToolsCache = none →
      getMCPToolsM now fresh st = getToolsFresh now fresh st)
    ∧ (∀ rnow rname o, (restartMCPServerM rnow rname o st).mcpToolsCache = st.mcpToolsCache
        ∧ (restartMCPServerM rnow rname o st).mcpLastCacheTime = st.mcpLastCacheTime)
    ∧ (∀ rnow rname o cached, st.mcpToolsCache = some cached →
        now - st.mcpLastCacheTime < CACHE_DURATION →
        (getMCPToolsM now fresh (restartMCPServerM rnow rname o st)).tools = cached
        ∧ (getMCPToolsM now fresh (restartMCPServerM rnow rname o st)).contactedServers
            = false) := by
  refine ⟨?_, ?_, ?_, ?_⟩
  · intro cached hc hlt
    simp [getMCPToolsM, hc, hlt]
  · intro h
    rcases h with h | h
    · cases hc : st.mcpToolsCache with
      | none => simp [getMCPToolsM, hc]
      | some cached => simp [getMCPToolsM, hc, Nat.not_lt.mpr h]
    · simp [getMCPToolsM, h]
  · intro rnow rname o
    exact ⟨rfl, rfl⟩
  · intro rnow rname o cached hc hlt
    have h1 : getMCPToolsM now fresh (restartMCPServerM rnow rname o st)
        = ⟨cached, false, restartMCPServerM rnow rname o st⟩ := by
      simp [getMCPToolsM, restartMCPServerM, hc, hlt]
    rw [h1]
    exact ⟨rfl, rfl⟩

/-- C3 witness: a valid capture is returned without contacting any server,
and a restart leaves both cache fields untouched. -/
theorem C3_witness :
    getMCPToolsM 2000 [newTool] c3State = ⟨[oldTool], false, c3State⟩
    ∧ (restartMCPServerM 1000 srvFs (.success none) c3State).mcpToolsCache
        = c3State.mcpToolsCache
    ∧ (restartMCPServerM 1000 srvFs (.success none) c3State).mcpLastCacheTime
        = c3State.mcpLastCacheTime :=
  ⟨(C3_cache_amended 2000 [newTool] c3State).1 [oldTool] rfl (by decide),
   ((C3_cache_amended 2000 [newTool] c3State).2.2.1 1000 srvFs (.success none)).1,
   ((C3_cache_amended 2000 [newTool] c3State).2.2.1 1000 srvFs (.success none)).2⟩

/-- C2: evaluation of the turn at the failing input. When a later
per-request server definition is invalid (neither command nor url/type),
per-request assembly throws after an earlier command server already
spawned; the outer per-request map is still empty, so the cleanup in the
finally block kills nothing and the earlier server's subprocess is still
alive when the turn reaches FAILED. On the paths where assembly returns the
map, cleanup does kill the spawned subprocess, whether the backend call
succeeds or throws. -/
theorem C2_cleanup_leak :
    (createWithMCPToolsM (some [(tempA, .commandCfg true), (tempB, .invalidCfg)])
        .succeeds ⟨[]⟩).1 = .error invalidCfgMsg
    ∧ (createWithMCPToolsM (some [(tempA, .commandCfg true), (tempB, .invalidCfg)])
        .succeeds ⟨[]⟩).2 = ⟨[(tempA, true)]⟩
    ∧ (createWithMCPToolsM (some [(tempA, .commandCfg true), (tempB, .httpCfg true)])
        .succeeds ⟨[]⟩).2 = ⟨[(tempA, false)]⟩
    ∧ (createWithMCPToolsM (some [(tempA, .commandCfg true)])
        (.throwsWith msgBoom) ⟨[]⟩).2 = ⟨[(tempA, false)]⟩ :=
  ⟨rfl, by decide, by decide, by decide⟩

/-- C1 counterexample: a tool offered only by an initialized per-request
server but absent from the global tool-to-server map produces the
requires-external-execution result message instead of being executed via
that per-request server. -/
theorem C1_counterexample :
    executeToolCall c1Env c1Tc = ⟨idOne, toolWord ++ toolT ++ requiresExternalSuffix⟩
    ∧ c1PrServer.listResult = some [toolT]
    ∧ c1PrServer.call toolT = .ok prAnswer
    ∧ c1Env.route toolT = none
    ∧ executeToolCall c1Env c1Tc ≠ ⟨idOne, prAnswer⟩ :=
  ⟨by decide, rfl, rfl, rfl, by decide⟩

/-- C1 amended: a tool name absent from the global routing table yields the
requires-external-execution message (even when a per-request server offers
the tool); only for a name present in the global routing table (with MCP
available) is the call routed, and then the per-request servers are tried
first, the global table being consulted only when no per-request server
satisfies the call. -/
theorem C1_routing_amended (env : ExecEnv) (tc : BufferedToolCall)
    (hdec : env.decodeErr tc.arguments = none) :
    (env.route tc.name = none →
      executeToolCall env tc = ⟨tc.id, toolWord ++ tc.name ++ requiresExternalSuffix⟩)
    ∧ (∀ s rest ts c, env.perRequest = s :: rest → s.initialized = true →
        s.isCommand = false → s.listResult = some ts → tc.name ∈ ts →
        s.call tc.name = .ok c → (env.route tc.name).isSome = true →
        env.mcpAvailable = true →
        executeToolCall env tc = ⟨tc.id, c⟩)
    ∧ (∀ prs : List PerRequestServer,
        (∀ s ∈ prs, s.initialized = false ∨ s.isCommand = true ∨ s.listResult = none
          ∨ ∀ ts, s.listResult = some ts → tc.name ∉ ts) →
        callToolWithServers tc.name prs env.route env.servers
          = callToolByName tc.name env.route env.servers) := by
  refine ⟨?_, ?_, ?_⟩
  · intro h
    simp [executeToolCall, hdec, h]
  · intro s rest ts c hpr hsi hsc hls hmem hcall hsome hav
    simp [executeToolCall, hdec, hsome, hav, hpr, callToolWithServers, hsi, hsc, hls,
      hmem, hcall]
  · intro prs
    induction prs with
    | nil =>
      intro _
      rfl
    | cons s rest ih =>
      intro h
      have hs := h s (List.mem_cons_self s rest)
      have hrest : ∀ x ∈ rest, x.initialized = false ∨ x.isCommand = true
          ∨ x.listResult = none ∨ ∀ ts, x.listResult = some ts → tc.name ∉ ts :=
        fun x hx => h x (List.mem_cons_of_mem s hx)
      by_cases hc : (s.initialized && !s.isCommand) = true
      · rcases hs with h1 | h1 | h1 | h1
        · simp [h1] at hc
        · simp [h1] at hc
        · simp [callToolWithServers, hc, h1, ih hrest]
        · cases hls : s.listResult with
          | none => simp [callToolWithServers, hc, hls, ih hrest]
          | some ts =>
            have hnotin : tc.name ∉ ts := h1 ts hls
            simp [callToolWithServers, hc, hls, hnotin, ih hrest]
      · simp [callToolWithServers, hc, ih hrest]

/-- C1 witness: with the tool present in the global routing table and also
offered by a per-request server, the per-request server satisfies the call
first; with the tool absent from the global table, the
requires-external-execution message is produced. -/
theorem C1_witness :
    c1bEnv.decodeErr c1Tc.arguments = none
    ∧ executeToolCall c1bEnv c1Tc = ⟨c1Tc.id, prAnswer⟩
    ∧ executeToolCall c1Env c1Tc
        = ⟨c1Tc.id, toolWord ++ c1Tc.name ++ requiresExternalSuffix⟩ :=
  ⟨rfl,
   (C1_routing_amended c1bEnv c1Tc rfl).2.1 c1PrServer [] [toolT] prAnswer
     rfl rfl rfl rfl (by decide) rfl rfl rfl,
   (C1_routing_amended c1Env c1Tc rfl).1 rfl⟩
